import Mathlib

/-!
Verification of the mcp-codemode sandboxed code-execution service.

This file gives a shallow embedding of the core of the repository:

* `src/pyrunner/tools/file_ops.py`    — path guard and sandbox file tools
* `src/pyrunner/tools/execute_code.py`— the `execute_code` tool
* `src/pyrunner/core/sandbox.py`      — `SandboxPool` (start, acquire/release,
  `exec_code`, `file_read`, `file_write`, `file_list`)
* `src/pyrunner/middleware.py`        — request-context token binding
* `src/client/proxy.py`               — the Graph credential proxy

Python text is modelled by Lean `String` (a Python `str` is a sequence of
unicode code points, as is `String.data`); Python `bytes` by `List Nat`
(each entry one byte).  Blocking container operations (docker exec, archive
put/get, redis get, upstream HTTP) are modelled as explicit oracle
parameters, and raised Python exceptions as `Except` errors.
-/

/-! ### Python primitives: `str.join`, `or`-chains, and UTF-8 codec -/

/-- Python `sep.join(parts)`. -/
def pyJoin (sep : String) : List String → String
  | [] => ""
  | [x] => x
  | x :: y :: xs => x ++ sep ++ pyJoin sep (y :: xs)

/-- Python `str.lower()` (ASCII case mapping, which covers every tag and
header this development evaluates). -/
def pyLower (s : String) : String := ⟨s.data.map Char.toLower⟩

/-- Helper for `pySplitChar`: split the character list at every separator. -/
def splitCharGo (sep : Char) : List Char → List Char → List String
  | [], cur => [⟨cur.reverse⟩]
  | c :: rest, cur =>
      if c = sep then ⟨cur.reverse⟩ :: splitCharGo sep rest []
      else splitCharGo sep rest (c :: cur)

/-- Python `s.split(sep)` for a one-character separator (the only form the
source uses: `posixpath` splits on `"/"`). -/
def pySplitChar (sep : Char) (s : String) : List String := splitCharGo sep s.data []

/-- Python `s.startswith(t)`. -/
def pyStartsWith (s t : String) : Bool := t.data.isPrefixOf s.data

/-- Python `s.endswith(t)`. -/
def pyEndsWith (s t : String) : Bool := t.data.isSuffixOf s.data

/-- A character Python `str.strip()` removes (ASCII whitespace; the unicode
space classes never arise in the headers this development evaluates). -/
def isPySpace (c : Char) : Bool :=
  c = ' ' ∨ c = '\t' ∨ c = '\n' ∨ c = '\r' ∨ c = '\x0b' ∨ c = '\x0c'

/-- Python `s.strip()`. -/
def pyStrip (s : String) : String :=
  ⟨((s.data.dropWhile isPySpace).reverse.dropWhile isPySpace).reverse⟩

/-- Python `a or b` on `str | None` values: `None` and `""` are falsy. -/
def pyOr (a b : Option String) : Option String :=
  match a with
  | none => b
  | some s => if s = "" then b else some s

/-- The unicode replacement character U+FFFD produced by
`bytes.decode("utf-8", errors="replace")` for ill-formed input. -/
def replChar : Char := Char.ofNat 0xFFFD

/-- A UTF-8 continuation byte. -/
def utf8Cont (b : Nat) : Bool := decide (0x80 ≤ b ∧ b < 0xC0)

/-- Valid range of the second byte of a 3- or 4-byte UTF-8 sequence headed by
`b1` (CPython's strict ranges: no overlongs, no surrogates, max U+10FFFF). -/
def utf8Cont2 (b1 b2 : Nat) : Bool := decide <|
  if b1 = 0xE0 then 0xA0 ≤ b2 ∧ b2 < 0xC0
  else if b1 = 0xED then 0x80 ≤ b2 ∧ b2 < 0xA0
  else if b1 = 0xF0 then 0x90 ≤ b2 ∧ b2 < 0xC0
  else if b1 = 0xF4 then 0x80 ≤ b2 ∧ b2 < 0x90
  else 0x80 ≤ b2 ∧ b2 < 0xC0

/-- Python `bytes.decode("utf-8", errors="replace")`: total decoding, each
maximal ill-formed subpart replaced by U+FFFD. -/
def utf8DecodeReplaceList : List Nat → List Char
  | [] => []
  | b1 :: rest =>
    if b1 < 0x80 then Char.ofNat b1 :: utf8DecodeReplaceList rest
    else if b1 < 0xC2 then replChar :: utf8DecodeReplaceList rest
    else if b1 < 0xE0 then
      if utf8Cont (rest.headD 256) then
        Char.ofNat ((b1 - 0xC0) * 64 + (rest.headD 256 - 0x80)) ::
          utf8DecodeReplaceList (rest.drop 1)
      else replChar :: utf8DecodeReplaceList rest
    else if b1 < 0xF0 then
      if utf8Cont2 b1 (rest.headD 256) then
        if utf8Cont ((rest.drop 1).headD 256) then
          Char.ofNat ((b1 - 0xE0) * 4096 + (rest.headD 256 - 0x80) * 64 +
              ((rest.drop 1).headD 256 - 0x80)) ::
            utf8DecodeReplaceList (rest.drop 2)
        else replChar :: utf8DecodeReplaceList (rest.drop 1)
      else replChar :: utf8DecodeReplaceList rest
    else if b1 < 0xF5 then
      if utf8Cont2 b1 (rest.headD 256) then
        if utf8Cont ((rest.drop 1).headD 256) then
          if utf8Cont ((rest.drop 2).headD 256) then
            Char.ofNat ((b1 - 0xF0) * 262144 + (rest.headD 256 - 0x80) * 4096 +
                ((rest.drop 1).headD 256 - 0x80) * 64 +
                ((rest.drop 2).headD 256 - 0x80)) ::
              utf8DecodeReplaceList (rest.drop 3)
          else replChar :: utf8DecodeReplaceList (rest.drop 2)
        else replChar :: utf8DecodeReplaceList (rest.drop 1)
      else replChar :: utf8DecodeReplaceList rest
    else replChar :: utf8DecodeReplaceList rest
termination_by l => l.length
decreasing_by all_goals (simp [List.length_drop]; try omega)

/-- UTF-8 encoding of one code point (Python `str.encode("utf-8")`, per char). -/
def utf8EncodeChar (c : Char) : List Nat :=
  let v := c.toNat
  if v < 0x80 then [v]
  else if v < 0x800 then [0xC0 + v / 64, 0x80 + v % 64]
  else if v < 0x10000 then [0xE0 + v / 4096, 0x80 + v / 64 % 64, 0x80 + v % 64]
  else [0xF0 + v / 262144, 0x80 + v / 4096 % 64, 0x80 + v / 64 % 64, 0x80 + v % 64]

/-- Python `s.encode("utf-8")`. -/
def utf8Encode (s : String) : List Nat := s.data.flatMap utf8EncodeChar

/-- Python `bs.decode("utf-8", errors="replace")` as a `String`. -/
def utf8DecodeReplace (bs : List Nat) : String := ⟨utf8DecodeReplaceList bs⟩

/-! ### Path guard (`src/pyrunner/tools/file_ops.py`) -/

/-- The loop body of CPython `posixpath.normpath`: fold one component into the
accumulated component list. -/
def normpathStep (initialSlashes : Nat) (acc : List String) (comp : String) : List String :=
  if comp = "" ∨ comp = "." then acc
  else if comp ≠ ".." ∨ (initialSlashes = 0 ∧ acc = []) ∨ acc.getLast? = some ".." then
    acc ++ [comp]
  else if acc ≠ [] then acc.dropLast
  else acc

/-- CPython `posixpath.normpath` (pure-python reference implementation). -/
def posixNormpath (path : String) : String :=
  if path = "" then "."
  else
    let initialSlashes : Nat :=
      if pyStartsWith path "/" then
        if pyStartsWith path "//" ∧ ¬ pyStartsWith path "///" then 2 else 1
      else 0
    let newComps := (pySplitChar '/' path).foldl (normpathStep initialSlashes) []
    let joined := pyJoin "/" newComps
    let out := String.join (List.replicate initialSlashes "/") ++ joined
    if out = "" then "." else out

/-- CPython `posixpath.join(a, b)` for two components. -/
def posixJoinTwo (a b : String) : String :=
  if pyStartsWith b "/" then b
  else if a = "" ∨ pyEndsWith a "/" then a ++ b
  else a ++ "/" ++ b

/-- Constant `_WORKSPACE_ROOT` in `file_ops.py`. -/
def WORKSPACE_ROOT : String := "/workspace"

/-- Function `_safe_path` in `file_ops.py`: resolve `path` relative to `/workspace` and
reject traversal attempts; a raised `ValueError` is the `.error` case.  (The
embedded error message drops the source's quote marks around the path.) -/
def _safe_path (path : String) : Except String String :=
  let resolved :=
    if ¬ pyStartsWith path "/" then posixNormpath (posixJoinTwo WORKSPACE_ROOT path)
    else posixNormpath path
  if ¬ pyStartsWith resolved WORKSPACE_ROOT then
    .error ("Path " ++ path ++ " resolves outside the sandbox workspace. " ++
      "All paths must be within " ++ WORKSPACE_ROOT ++ ".")
  else .ok resolved

/-! ### Sandbox pool (`src/pyrunner/core/sandbox.py`) -/

/-- A Docker container handle (opaque identity). -/
structure Container where
  cid : Nat
deriving DecidableEq, Repr

/-- An operation performed on a container over the docker channel. -/
inductive ContainerOp where
  | execRun (argv : List String)
deriving DecidableEq, Repr

/-- Dataclass `CodeExecResult` from `core/types/container.py`. -/
structure CodeExecResult where
  stdout : String
  stderr : String
  exit_code : Int
  truncated : Bool := false
deriving DecidableEq, Repr

/-- Outcome of one blocking `container.exec_run(cmd, workdir="/workspace",
demux=True)` call run under `asyncio.wait_for`: it completes with an exit code
and optional demuxed streams, breaches the timeout, or raises (docker errors). -/
inductive ExecOutcome where
  | completed (exit_code : Int) (demux : Option (Option (List Nat) × Option (List Nat)))
  | timedOut
  | raised (msg : String)

/-- The docker exec channel: argv and effective timeout to outcome. -/
abbrev ExecOracle := List String → Nat → ExecOutcome

/-- The two settings of `config.py` that `exec_code` reads (both are loaded
from environment variables, so any value is reachable). -/
structure SandboxSettings where
  exec_timeout : Nat
  max_output_size : Nat
deriving DecidableEq, Repr

/-- Mapping `LANGUAGE_COMMANDS` from `core/sandbox.py`, in dict insertion order. -/
def LANGUAGE_COMMANDS : List (String × List String) :=
  [("python", ["python", "-c"]),
   ("bash", ["bash", "-c"]),
   ("sh", ["sh", "-c"]),
   ("node", ["node", "-e"]),
   ("javascript", ["node", "-e"])]

/-- Method `SandboxPool.exec_code`.  Returns the result (`.error` when the docker
channel raised) together with the list of operations issued to the container. -/
def exec_code (settings : SandboxSettings) (exec : ExecOracle) (code : String)
    (language : String) (timeout? : Option Nat) :
    Except String CodeExecResult × List ContainerOp :=
  let timeout := timeout?.getD settings.exec_timeout
  match LANGUAGE_COMMANDS.lookup (pyLower language) with
  | none =>
      (.ok { stdout := "",
             stderr := "Unsupported language: " ++ language ++ ". Supported: " ++
               pyJoin ", " (LANGUAGE_COMMANDS.map Prod.fst),
             exit_code := 1 }, [])
  | some cmdHead =>
      let cmd := cmdHead ++ [code]
      match exec cmd timeout with
      | .timedOut =>
          (.ok { stdout := "",
                 stderr := "Execution timed out after " ++ toString timeout ++ " seconds",
                 exit_code := -1 },
           [.execRun cmd, .execRun ["pkill", "-f", cmdHead.headD ""]])
      | .raised msg => (.error msg, [.execRun cmd])
      | .completed ec demux =>
          let (stdoutRaw, stderrRaw) := demux.getD (none, none)
          let stdout0 := utf8DecodeReplace (stdoutRaw.getD [])
          let stderr0 := utf8DecodeReplace (stderrRaw.getD [])
          let t1 : Bool := decide (stdout0.length > settings.max_output_size)
          let t2 : Bool := decide (stderr0.length > settings.max_output_size)
          let stdout1 := if t1 then stdout0.take settings.max_output_size ++
            "\n... [output truncated]" else stdout0
          let stderr1 := if t2 then stderr0.take settings.max_output_size ++
            "\n... [output truncated]" else stderr0
          (.ok { stdout := stdout1, stderr := stderr1, exit_code := ec,
                 truncated := t1 || t2 },
           [.execRun cmd])

/-- A container workspace: file path to raw bytes, most recent write first. -/
abbrev Workspace := List (String × List Nat)

/-- Method `SandboxPool.file_read`: raw bytes of the file, or a raised
`FileNotFoundError`. -/
def file_read (fs : Workspace) (path : String) : Except String (List Nat) :=
  match fs.lookup path with
  | some bs => .ok bs
  | none => .error ("File not found in sandbox: " ++ path)

/-- Method `SandboxPool.file_write`: write the file (parent creation is implicit in
the workspace map model) and return the byte count. -/
def file_write (fs : Workspace) (path : String) (content : List Nat) :
    Nat × Workspace :=
  (content.length, (path, content) :: fs)

/-- The mutable state `SandboxPool.start` builds up: owned containers, the
idle queue, and the docker calls issued per container. -/
structure StartState where
  containers : List Container
  queue : List Container
  ops : List (Container × List String)
deriving Repr

/-- The `for i in range(settings.pool_size)` loop of `SandboxPool.start`:
create container `i`, ensure `/workspace`, append to the owned list, enqueue.
A failed creation propagates the exception with no rollback of prior
iterations. -/
def pool_start_go (create : Nat → Except String Container) :
    Nat → Nat → StartState → Except String Unit × StartState
  | _, 0, st => (.ok (), st)
  | i, rem + 1, st =>
    match create i with
    | .error e => (.error e, st)
    | .ok c =>
        pool_start_go create (i + 1) rem
          { containers := st.containers ++ [c],
            queue := st.queue ++ [c],
            ops := st.ops ++ [(c, ["mkdir", "-p", "/workspace"])] }

/-- Method `SandboxPool.start` restricted to the container-creation loop (the image
check precedes it and touches no pool state). -/
def pool_start (pool_size : Nat) (create : Nat → Except String Container) :
    Except String Unit × StartState :=
  pool_start_go create 0 pool_size ⟨[], [], []⟩

/-! ### Tool layer (`src/pyrunner/tools/*.py`) -/

/-- Pool state seen by the tool handlers: the idle queue
(`asyncio.Queue`, FIFO) and each container's workspace contents. -/
structure PoolState where
  queue : List Container
  fs : Container → Workspace

/-- Method `pool.acquire()`: take the front of the idle queue; `none` means the
handler is blocked waiting (no idle container). -/
def acquire (st : PoolState) : Option (Container × PoolState) :=
  match st.queue with
  | [] => none
  | c :: rest => some (c, { st with queue := rest })

/-- Method `pool.release(c)`: put the container back (FIFO queue, workspace
intentionally not cleaned). -/
def release (st : PoolState) (c : Container) : PoolState :=
  { st with queue := st.queue ++ [c] }

/-- Replace container `c`'s workspace. -/
def updateFs (st : PoolState) (c : Container) (fs : Workspace) : PoolState :=
  { st with fs := fun x => if x = c then fs else st.fs x }

/-- The `execute_code` tool handler: acquire, run `exec_code`, release in the
`finally` block (so also when the docker channel raised), then format the
multi-section response. -/
def execute_code_tool (settings : SandboxSettings) (exec : Container → ExecOracle)
    (st : PoolState) (code : String) (language : String) :
    Option (Except String String × PoolState) :=
  match acquire st with
  | none => none
  | some (c, st1) =>
    let r := (exec_code settings (exec c) code language none).1
    let st2 := release st1 c
    match r with
    | .error msg => some (.error msg, st2)
    | .ok result =>
      let parts :=
        (if result.stdout ≠ "" then ["[stdout]\n" ++ result.stdout] else []) ++
        (if result.stderr ≠ "" then ["[stderr]\n" ++ result.stderr] else []) ++
        ["[exit_code] " ++ toString result.exit_code] ++
        (if result.truncated then ["[note] Output was truncated due to size limits."] else [])
      some (.ok (pyJoin "\n" parts), st2)

/-- The `sandbox_read_file` tool handler: path guard (raises before acquire),
acquire, `pool.file_read`, release in `finally`, decode with replacement. -/
def sandbox_read_file (st : PoolState) (path : String) :
    Option (Except String String × PoolState) :=
  match _safe_path path with
  | .error e => some (.error e, st)
  | .ok resolved =>
    match acquire st with
    | none => none
    | some (c, st1) =>
      let r := file_read (st1.fs c) resolved
      let st2 := release st1 c
      match r with
      | .error e => some (.error e, st2)
      | .ok data => some (.ok (utf8DecodeReplace data), st2)

/-- The `sandbox_write_file` tool handler: path guard, acquire,
`pool.file_write` of the UTF-8 encoded content, release in `finally`,
confirmation string. -/
def sandbox_write_file (st : PoolState) (path content : String) :
    Option (Except String String × PoolState) :=
  match _safe_path path with
  | .error e => some (.error e, st)
  | .ok resolved =>
    match acquire st with
    | none => none
    | some (c, st1) =>
      let wr := file_write (st1.fs c) resolved (utf8Encode content)
      let st2 := release (updateFs st1 c wr.2) c
      some (.ok ("Wrote " ++ toString wr.1 ++ " bytes to " ++ resolved), st2)

/-- The `sandbox_list_files` tool handler; the `ls` oracle models
`container.exec_run(["ls", "-la", path])` (`none` = non-zero exit, which
`pool.file_list` turns into a raised `FileNotFoundError`). -/
def sandbox_list_files (ls : Container → String → Option String)
    (st : PoolState) (path : String) :
    Option (Except String String × PoolState) :=
  match _safe_path path with
  | .error e => some (.error e, st)
  | .ok resolved =>
    match acquire st with
    | none => none
    | some (c, st1) =>
      let st2 := release st1 c
      match ls c resolved with
      | none => some (.error ("Cannot list path: " ++ resolved), st2)
      | some listing => some (.ok listing, st2)

/-! ### Credential proxy (`src/client/proxy.py`) -/

/-- A Python exception raised inside a route handler. -/
inductive PyExc where
  | typeError (msg : String)
deriving DecidableEq, Repr

/-- The FastAPI `Response` fields the proxy sets. -/
structure ProxyResponse where
  content : String
  status_code : Nat
  media_type : Option String
deriving DecidableEq, Repr

/-- Response of the upstream API. -/
structure UpstreamResponse where
  status_code : Nat
  content_type : Option String
  content : String
deriving DecidableEq, Repr

/-- The upstream HTTP channel: method, target url, headers, optional body. -/
abbrev UpstreamOracle :=
  String → String → List (String × String) → Option String → UpstreamResponse

def GRAPH_BASE_URL : String := "https://graph.microsoft.com/v1.0"

def GITHUB_BASE_URL : String := "https://api.github.com"

/-- Helper `_proxy_request` in `client/proxy.py`: build the target url from base,
path and query string, forward method/headers/body, and relay the upstream
status code, content type and body. -/
def _proxy_request (upstream : UpstreamOracle) (method base_url path query : String)
    (headers : List (String × String)) (body : String) : ProxyResponse :=
  let target := base_url ++ "/" ++ path
  let target := if query ≠ "" then target ++ "?" ++ query else target
  let u := upstream method target headers (if body ≠ "" then some body else none)
  { content := u.content, status_code := u.status_code, media_type := u.content_type }

/-- Route `graph_proxy` in `client/proxy.py`.  Here `headers` is `request.headers.get`,
`kv` is the redis lookup (stored token bytes decoded as UTF-8).  The source's
final step is `_proxy_request(request, base_url=GRAPH_BASE_URL, path=path,
auth_header=headers)`, but `_proxy_request` has no parameter named
`auth_header` (its parameter is `headers`), so that call raises `TypeError`
before any request is forwarded; the `.error` case models that raise. -/
def graph_proxy (headers : String → Option String) (kv : String → Option String)
    (path : String) : Except PyExc ProxyResponse :=
  let proxy_id := headers "X-Proxy-ID"
  if proxy_id = none ∨ proxy_id = some "" then
    .ok { content := "unknown request, cannot continue!", status_code := 401,
          media_type := some "text/plain" }
  else
    match kv (proxy_id.getD "") with
    | none =>
        .ok { content := "invalid proxy ID, cannot continue!", status_code := 401,
              media_type := some "text/plain" }
    | some token =>
        if token = "" then
          .ok { content := "invalid proxy ID, cannot continue!", status_code := 401,
                media_type := some "text/plain" }
        else
          .error (.typeError
            "_proxy_request got an unexpected keyword argument auth_header")

/-! ### Request-context middleware (`src/pyrunner/middleware.py`) -/

/-- The `graph_token` binding computed by `FastMCPContextMiddleware.dispatch`:
`request.headers.get("x-microsoft-graph-token") or
 request.headers.get("x-graph-token") or bearer_token or None`,
where `bearer_token` is `authorization[7:].strip()` when the lowercased
`authorization` header starts with `"bearer "`, else `""`. -/
def dispatch_graph_token (x_msft_graph_token x_graph_token authorization? :
    Option String) : Option String :=
  let authorization := authorization?.getD ""
  let bearer_token :=
    if pyStartsWith (pyLower authorization) "bearer " then pyStrip (authorization.drop 7)
    else ""
  pyOr x_msft_graph_token (pyOr x_graph_token (pyOr (some bearer_token) none))

/-- Modelled from the spec wording of C10: the token extracted from an
`Authorization: Bearer …` header, or `none` when the header is absent or not
a bearer header. -/
def bearerTokenOf (authorization? : Option String) : Option String :=
  match authorization? with
  | none => none
  | some a =>
      if pyStartsWith (pyLower a) "bearer " then some (pyStrip (a.drop 7)) else none

/-- Modelled from the spec wording of C10: the first non-empty value among the
sources; a source that is absent or empty is skipped. -/
def firstNonEmptyToken : List (Option String) → Option String
  | [] => none
  | none :: rest => firstNonEmptyToken rest
  | some v :: rest => if v = "" then firstNonEmptyToken rest else some v

/-- The string `t` occurs as a contiguous substring of `s`. -/
def strContains (s t : String) : Prop := t.data <:+: s.data

instance {ε α : Type} [DecidableEq ε] [DecidableEq α] : DecidableEq (Except ε α)
  | .ok a, .ok b =>
      if h : a = b then .isTrue (by rw [h]) else .isFalse (by simp [h])
  | .error a, .error b =>
      if h : a = b then .isTrue (by rw [h]) else .isFalse (by simp [h])
  | .ok _, .error _ => .isFalse (by simp)
  | .error _, .ok _ => .isFalse (by simp)

/-! ### Supporting lemmas -/

theorem utf8Decode_one (v : Nat) (t : List Nat) (h1 : v < 0x80) :
    utf8DecodeReplaceList (v :: t) = Char.ofNat v :: utf8DecodeReplaceList t := by
  rw [utf8DecodeReplaceList, if_pos h1]

theorem utf8Decode_two (v : Nat) (t : List Nat) (h1 : 0x80 ≤ v) (h2 : v < 0x800) :
    utf8DecodeReplaceList ((0xC0 + v / 64) :: (0x80 + v % 64) :: t) =
      Char.ofNat v :: utf8DecodeReplaceList t := by
  rw [utf8DecodeReplaceList]
  simp only [List.headD_cons, List.drop_succ_cons, List.drop_zero]
  rw [if_neg (by omega : ¬ ((0xC0 + v / 64 : Nat) < 0x80)),
    if_neg (by omega : ¬ ((0xC0 + v / 64 : Nat) < 0xC2)),
    if_pos (by omega : (0xC0 + v / 64 : Nat) < 0xE0),
    if_pos (show utf8Cont (0x80 + v % 64) = true by simp [utf8Cont]; omega)]
  have hval : (0xC0 + v / 64 - 0xC0) * 64 + (0x80 + v % 64 - 0x80) = v := by omega
  rw [hval]

theorem utf8Decode_three (v : Nat) (t : List Nat) (h1 : 0x800 ≤ v) (h2 : v < 0x10000)
    (hs : ¬ (0xD800 ≤ v ∧ v < 0xE000)) :
    utf8DecodeReplaceList
        ((0xE0 + v / 4096) :: (0x80 + v / 64 % 64) :: (0x80 + v % 64) :: t) =
      Char.ofNat v :: utf8DecodeReplaceList t := by
  rw [utf8DecodeReplaceList]
  simp only [List.headD_cons, List.drop_succ_cons, List.drop_zero]
  have hc2 : utf8Cont2 (0xE0 + v / 4096) (0x80 + v / 64 % 64) = true := by
    simp only [utf8Cont2, decide_eq_true_eq]
    split_ifs <;> omega
  rw [if_neg (by omega : ¬ ((0xE0 + v / 4096 : Nat) < 0x80)),
    if_neg (by omega : ¬ ((0xE0 + v / 4096 : Nat) < 0xC2)),
    if_neg (by omega : ¬ ((0xE0 + v / 4096 : Nat) < 0xE0)),
    if_pos (by omega : (0xE0 + v / 4096 : Nat) < 0xF0),
    if_pos hc2,
    if_pos (show utf8Cont (0x80 + v % 64) = true by simp [utf8Cont]; omega)]
  have hval : (0xE0 + v / 4096 - 0xE0) * 4096 + (0x80 + v / 64 % 64 - 0x80) * 64 +
      (0x80 + v % 64 - 0x80) = v := by omega
  rw [hval]

theorem utf8Decode_four (v : Nat) (t : List Nat) (h1 : 0x10000 ≤ v) (h2 : v < 0x110000) :
    utf8DecodeReplaceList
        ((0xF0 + v / 262144) :: (0x80 + v / 4096 % 64) :: (0x80 + v / 64 % 64) ::
          (0x80 + v % 64) :: t) =
      Char.ofNat v :: utf8DecodeReplaceList t := by
  rw [utf8DecodeReplaceList]
  simp only [List.headD_cons, List.drop_succ_cons, List.drop_zero]
  have hc2 : utf8Cont2 (0xF0 + v / 262144) (0x80 + v / 4096 % 64) = true := by
    simp only [utf8Cont2, decide_eq_true_eq]
    split_ifs <;> omega
  rw [if_neg (by omega : ¬ ((0xF0 + v / 262144 : Nat) < 0x80)),
    if_neg (by omega : ¬ ((0xF0 + v / 262144 : Nat) < 0xC2)),
    if_neg (by omega : ¬ ((0xF0 + v / 262144 : Nat) < 0xE0)),
    if_neg (by omega : ¬ ((0xF0 + v / 262144 : Nat) < 0xF0)),
    if_pos (by omega : (0xF0 + v / 262144 : Nat) < 0xF5),
    if_pos hc2,
    if_pos (show utf8Cont (0x80 + v / 64 % 64) = true by simp [utf8Cont]; omega),
    if_pos (show utf8Cont (0x80 + v % 64) = true by simp [utf8Cont]; omega)]
  have hval : (0xF0 + v / 262144 - 0xF0) * 262144 + (0x80 + v / 4096 % 64 - 0x80) * 4096 +
      (0x80 + v / 64 % 64 - 0x80) * 64 + (0x80 + v % 64 - 0x80) = v := by omega
  rw [hval]

theorem utf8DecodeReplaceList_encodeChar (c : Char) (t : List Nat) :
    utf8DecodeReplaceList (utf8EncodeChar c ++ t) = c :: utf8DecodeReplaceList t := by
  have hv : c.toNat < 0x110000 ∧ ¬ (0xD800 ≤ c.toNat ∧ c.toNat < 0xE000) := by
    have h := c.valid
    have he : c.toNat = c.val.toNat := rfl
    simp only [UInt32.isValidChar, Nat.isValidChar] at h
    omega
  have hofn : Char.ofNat c.toNat = c := Char.ofNat_toNat c
  by_cases h1 : c.toNat < 0x80
  · simp only [utf8EncodeChar, if_pos h1, List.cons_append, List.nil_append]
    rw [utf8Decode_one _ _ h1, hofn]
  · by_cases h2 : c.toNat < 0x800
    · simp only [utf8EncodeChar, if_neg h1, if_pos h2, List.cons_append, List.nil_append]
      rw [utf8Decode_two _ _ (by omega) h2, hofn]
    · by_cases h3 : c.toNat < 0x10000
      · simp only [utf8EncodeChar, if_neg h1, if_neg h2, if_pos h3, List.cons_append,
          List.nil_append]
        rw [utf8Decode_three _ _ (by omega) h3 hv.2, hofn]
      · simp only [utf8EncodeChar, if_neg h1, if_neg h2, if_neg h3, List.cons_append,
          List.nil_append]
        rw [utf8Decode_four _ _ (by omega) hv.1, hofn]

theorem utf8DecodeReplaceList_encodeList (l : List Char) :
    utf8DecodeReplaceList (l.flatMap utf8EncodeChar) = l := by
  induction l with
  | nil =>
    simp only [List.flatMap_nil]
    rw [utf8DecodeReplaceList]
  | cons c t ih =>
    simp only [List.flatMap_cons, List.append_assoc]
    rw [utf8DecodeReplaceList_encodeChar, ih]

/-- Round trip: decoding an encoded Python string gives it back. -/
theorem utf8DecodeReplace_encode (s : String) : utf8DecodeReplace (utf8Encode s) = s := by
  cases s with
  | mk data =>
    simp only [utf8Encode, utf8DecodeReplace]
    rw [utf8DecodeReplaceList_encodeList]


theorem pyJoin_mem_infix (sep : String) (parts : List String) (p : String)
    (h : p ∈ parts) : p.data <:+: (pyJoin sep parts).data := by
  induction parts with
  | nil => cases h
  | cons x xs ih =>
    cases xs with
    | nil =>
      rw [List.mem_singleton] at h
      subst h
      exact List.infix_refl _
    | cons y ys =>
      rcases List.mem_cons.mp h with rfl | h
      · rw [pyJoin]
        simp only [String.data_append, List.append_assoc]
        exact (List.prefix_append _ _).isInfix
      · have hinf := ih h
        rw [pyJoin]
        simp only [String.data_append]
        exact hinf.trans (List.suffix_append _ _).isInfix

theorem firstNonEmptyToken_ne_empty (sources : List (Option String)) :
    firstNonEmptyToken sources ≠ some "" := by
  induction sources with
  | nil => simp [firstNonEmptyToken]
  | cons s rest ih =>
    cases s with
    | none => simpa [firstNonEmptyToken] using ih
    | some v =>
      rw [firstNonEmptyToken]
      by_cases hv : v = ""
      · simpa [hv] using ih
      · simp [hv]

theorem firstNonEmptyToken_cons (a : Option String) (rest : List (Option String)) :
    firstNonEmptyToken (a :: rest) = pyOr a (firstNonEmptyToken rest) := by
  cases a with
  | none => rfl
  | some v =>
    by_cases hv : v = "" <;> simp [firstNonEmptyToken, pyOr, hv]

/-! ### Claims -/

/-- C1: the spec requires `path_guard(p)` to return only normalized absolute
strings that begin with `"/workspace/"` (or are exactly `"/workspace"`), or to
raise a traversal error.  The code checks `resolved.startswith("/workspace")`
without a trailing slash, so the sibling path `/workspacefoo` — which is not
inside the workspace — is accepted and returned unchanged, contradicting both
the spec sentence and the guard's own docstring and error message
("All paths must be within /workspace"). -/
theorem c1_path_guard_accepts_sibling :
    _safe_path "/workspacefoo" = .ok "/workspacefoo" ∧
    ¬ (pyStartsWith "/workspacefoo" "/workspace/" = true ∨
        "/workspacefoo" = "/workspace") := by
  constructor
  · decide
  · decide

/-- C7: when the docker exec channel breaches the effective timeout
(caller-supplied, else `settings.exec_timeout`), `exec_code` returns the
synthetic result `exit_code = -1`, empty stdout, and stderr
`"Execution timed out after N seconds"`, after issuing a best-effort
`pkill -f` of the argv head. -/
theorem c7_exec_code_timeout (settings : SandboxSettings) (exec : ExecOracle)
    (code language : String) (timeout? : Option Nat) (cmdHead : List String)
    (hlang : LANGUAGE_COMMANDS.lookup (pyLower language) = some cmdHead)
    (htimeout : exec (cmdHead ++ [code]) (timeout?.getD settings.exec_timeout) =
      .timedOut) :
    exec_code settings exec code language timeout? =
      (.ok { stdout := "",
             stderr := "Execution timed out after " ++
               toString (timeout?.getD settings.exec_timeout) ++ " seconds",
             exit_code := -1 },
       [.execRun (cmdHead ++ [code]),
        .execRun ["pkill", "-f", cmdHead.headD ""]]) := by
  simp only [exec_code, hlang, htimeout]

theorem c7_exec_code_timeout_witness :
    exec_code ⟨2, 50000⟩ (fun _ _ => .timedOut) "import time; time.sleep(60)"
        "python" none =
      (.ok { stdout := "", stderr := "Execution timed out after 2 seconds",
             exit_code := -1 },
       [.execRun ["python", "-c", "import time; time.sleep(60)"],
        .execRun ["pkill", "-f", "python"]]) :=
  c7_exec_code_timeout ⟨2, 50000⟩ (fun _ _ => .timedOut)
    "import time; time.sleep(60)" "python" none ["python", "-c"] (by decide) rfl

/-- C9: a language tag whose lowercased form is not one of python, bash, sh,
node, javascript makes `exec_code` return exit code 1, empty stdout, and a
stderr naming the supported set, with no operation issued to the container. -/
theorem c9_unsupported_language (settings : SandboxSettings) (exec : ExecOracle)
    (code language : String) (timeout? : Option Nat)
    (h : pyLower language ∉ ["python", "bash", "sh", "node", "javascript"]) :
    exec_code settings exec code language timeout? =
      (.ok { stdout := "",
             stderr := "Unsupported language: " ++ language ++
               ". Supported: python, bash, sh, node, javascript",
             exit_code := 1 }, []) := by
  simp only [List.mem_cons, List.mem_singleton, not_or] at h
  obtain ⟨h1, h2, h3, h4, h5, -⟩ := h
  have hl : LANGUAGE_COMMANDS.lookup (pyLower language) = none := by
    simp only [LANGUAGE_COMMANDS, List.lookup,
      beq_eq_false_iff_ne.mpr h1, beq_eq_false_iff_ne.mpr h2,
      beq_eq_false_iff_ne.mpr h3, beq_eq_false_iff_ne.mpr h4,
      beq_eq_false_iff_ne.mpr h5, cond_false]
  simp only [exec_code, hl]
  rw [String.append_assoc]
  rfl

theorem c9_unsupported_language_witness :
    exec_code ⟨30, 50000⟩ (fun _ _ => .timedOut) "puts 1" "ruby" none =
      (.ok { stdout := "",
             stderr := "Unsupported language: ruby. Supported: python, bash, sh, node, javascript",
             exit_code := 1 }, []) :=
  c9_unsupported_language ⟨30, 50000⟩ (fun _ _ => .timedOut) "puts 1" "ruby" none
    (by decide)

/-- C10: the middleware binds `graph_token` to the first non-empty value among
the `X-Microsoft-Graph-Token` header, the `X-Graph-Token` header, and the
token extracted from `Authorization: Bearer …`; a present-but-empty source
(including a bearer value that strips to empty) is skipped, and when every
source is empty or absent the binding is `none` — never `some ""`. -/
theorem c10_graph_token_binding (h1 h2 ha : Option String) :
    dispatch_graph_token h1 h2 ha = firstNonEmptyToken [h1, h2, bearerTokenOf ha] ∧
    dispatch_graph_token h1 h2 ha ≠ some "" := by
  have hbt : pyOr (some (if pyStartsWith (pyLower (ha.getD "")) "bearer " then
        pyStrip ((ha.getD "").drop 7) else "")) none =
      pyOr (bearerTokenOf ha) none := by
    cases ha with
    | none =>
      have hfalse : pyStartsWith (pyLower ("" : String)) "bearer " = false := rfl
      simp [bearerTokenOf, pyOr, Option.getD, hfalse]
    | some a =>
      by_cases hb : pyStartsWith (pyLower a) "bearer " = true
      · simp [bearerTokenOf, pyOr, Option.getD, hb]
      · simp only [Bool.not_eq_true] at hb
        simp [bearerTokenOf, pyOr, Option.getD, hb]
  have key : dispatch_graph_token h1 h2 ha =
      firstNonEmptyToken [h1, h2, bearerTokenOf ha] := by
    simp only [dispatch_graph_token, firstNonEmptyToken_cons]
    simp only [firstNonEmptyToken]
    rw [← hbt]
  refine ⟨key, ?_⟩
  rw [key]
  exact firstNonEmptyToken_ne_empty _

/-- C2: the spec requires an authorized Graph proxy request (valid
`X-Proxy-ID`, token stored in the KV store) to be forwarded to the Graph v1.0
base with `Authorization: Bearer <token>`.  The code instead calls
`_proxy_request(request, base_url=…, path=…, auth_header=headers)` although
`_proxy_request` accepts no `auth_header` parameter, so every authorized
request raises `TypeError` and nothing is ever forwarded; only the two 401
guard paths behave as specified. -/
theorem c2_graph_proxy_crashes_on_authorized_request :
    graph_proxy (fun h => if h = "X-Proxy-ID" then some "XYZ" else none)
        (fun k => if k = "XYZ" then some "T" else none) "me" =
      .error (.typeError
        "_proxy_request got an unexpected keyword argument auth_header") ∧
    graph_proxy (fun _ => none)
        (fun k => if k = "XYZ" then some "T" else none) "me" =
      .ok { content := "unknown request, cannot continue!", status_code := 401,
            media_type := some "text/plain" } ∧
    graph_proxy (fun h => if h = "X-Proxy-ID" then some "ABC" else none)
        (fun k => if k = "XYZ" then some "T" else none) "me" =
      .ok { content := "invalid proxy ID, cannot continue!", status_code := 401,
            media_type := some "text/plain" } := by
  refine ⟨?_, ?_, ?_⟩ <;> rfl

theorem pool_start_go_ok (create : Nat → Except String Container) :
    ∀ (rem i : Nat) (st : StartState),
      (∀ j, j < rem → (create (i + j)).isOk = true) →
      ∃ newcs : List Container,
        pool_start_go create i rem st =
          (.ok (), { containers := st.containers ++ newcs,
                     queue := st.queue ++ newcs,
                     ops := st.ops ++ newcs.map
                       (fun c => (c, ["mkdir", "-p", "/workspace"])) }) ∧
        newcs.length = rem := by
  intro rem
  induction rem with
  | zero =>
    intro i st _
    exact ⟨[], by simp [pool_start_go], rfl⟩
  | succ r ih =>
    intro i st hok
    have h0 := hok 0 (by omega)
    rcases hc : create (i + 0) with e | c
    · rw [hc] at h0; simp [Except.isOk, Except.toBool] at h0
    · rw [show i + 0 = i from rfl] at hc
      have hrec := ih (i + 1)
        { containers := st.containers ++ [c], queue := st.queue ++ [c],
          ops := st.ops ++ [(c, ["mkdir", "-p", "/workspace"])] }
        (by intro j hj
            have := hok (j + 1) (by omega)
            rwa [show i + (j + 1) = i + 1 + j by omega] at this)
      obtain ⟨newcs, hgo, hlen⟩ := hrec
      dsimp only at hgo
      refine ⟨c :: newcs, ?_, by simp [hlen]⟩
      rw [pool_start_go, hc]
      dsimp only
      rw [hgo]
      simp [List.append_assoc]

theorem pool_start_go_err (create : Nat → Except String Container) :
    ∀ (k rem i : Nat) (st : StartState) (e : String),
      k < rem →
      (∀ j, j < k → (create (i + j)).isOk = true) →
      create (i + k) = .error e →
      ∃ newcs : List Container,
        pool_start_go create i rem st =
          (.error e, { containers := st.containers ++ newcs,
                       queue := st.queue ++ newcs,
                       ops := st.ops ++ newcs.map
                         (fun c => (c, ["mkdir", "-p", "/workspace"])) }) ∧
        newcs.length = k := by
  intro k
  induction k with
  | zero =>
    intro rem i st e hk _ herr
    rcases rem with _ | r
    · omega
    · rw [show i + 0 = i from rfl] at herr
      refine ⟨[], ?_, rfl⟩
      rw [pool_start_go, herr]
      simp
  | succ kk ih =>
    intro rem i st e hk hok herr
    rcases rem with _ | r
    · omega
    · have h0 := hok 0 (by omega)
      rcases hc : create (i + 0) with e0 | c
      · rw [hc] at h0; simp [Except.isOk, Except.toBool] at h0
      · rw [show i + 0 = i from rfl] at hc
        have hrec := ih r (i + 1)
          { containers := st.containers ++ [c], queue := st.queue ++ [c],
            ops := st.ops ++ [(c, ["mkdir", "-p", "/workspace"])] } e
          (by omega)
          (by intro j hj
              have := hok (j + 1) (by omega)
              rwa [show i + (j + 1) = i + 1 + j by omega] at this)
          (by rwa [show i + (kk + 1) = i + 1 + kk by omega] at herr)
        obtain ⟨newcs, hgo, hlen⟩ := hrec
        dsimp only at hgo
        refine ⟨c :: newcs, ?_, by simp [hlen]⟩
        rw [pool_start_go, hc]
        dsimp only
        rw [hgo]
        simp [List.append_assoc]

/-- C5 counterexample: with pool size 2 and creation of container 1 failing,
`start()` fails — but container 0 is NOT rolled back: it remains in the owned
list and in the idle queue, contradicting the claimed partial-failure
rollback. -/
theorem c5_start_rollback_counterexample :
    (pool_start 2 (fun i => if i = 0 then .ok ⟨0⟩ else .error "boom")).1 =
      .error "boom" ∧
    (pool_start 2 (fun i => if i = 0 then .ok ⟨0⟩ else .error "boom")).2.containers =
      [⟨0⟩] ∧
    (pool_start 2 (fun i => if i = 0 then .ok ⟨0⟩ else .error "boom")).2.queue =
      [⟨0⟩] := by
  refine ⟨rfl, rfl, rfl⟩

/-- C5 (amended): when every creation succeeds, `start()` creates all N
containers, ensures `/workspace` in each, and enqueues all of them before
returning; when creation of container k fails, `start()` fails by propagating
the creation error, but containers 0..k-1 are NOT rolled back — they remain
owned and enqueued (the loop has no rollback handler). -/
theorem c5_pool_start_partial_failure (N : Nat) (create : Nat → Except String Container) :
    ((∀ i, i < N → (create i).isOk = true) →
      ∃ st : StartState,
        pool_start N create = (.ok (), st) ∧
        st.containers.length = N ∧
        st.queue = st.containers ∧
        ∀ c ∈ st.containers, (c, ["mkdir", "-p", "/workspace"]) ∈ st.ops) ∧
    (∀ k e, k < N → (∀ i, i < k → (create i).isOk = true) → create k = .error e →
      ∃ st : StartState,
        pool_start N create = (.error e, st) ∧
        st.containers.length = k ∧
        st.queue = st.containers) := by
  constructor
  · intro hok
    obtain ⟨newcs, hgo, hlen⟩ := pool_start_go_ok create N 0 ⟨[], [], []⟩
      (by intro j hj; simpa using hok j hj)
    refine ⟨_, hgo, by simpa using hlen, by simp, ?_⟩
    intro c hc
    simp only [List.nil_append] at hc ⊢
    exact List.mem_map_of_mem _ hc
  · intro k e hk hok herr
    obtain ⟨newcs, hgo, hlen⟩ := pool_start_go_err create k N 0 ⟨[], [], []⟩ e hk
      (by intro j hj; simpa using hok j hj) (by simpa using herr)
    exact ⟨_, hgo, by simpa using hlen, by simp⟩

theorem c5_pool_start_partial_failure_witness :
    (∃ st : StartState,
      pool_start 2 (fun i => .ok ⟨i⟩) = (.ok (), st) ∧
      st.containers.length = 2 ∧
      st.queue = st.containers ∧
      ∀ c ∈ st.containers, (c, ["mkdir", "-p", "/workspace"]) ∈ st.ops) ∧
    (∃ st : StartState,
      pool_start 2 (fun i => if i = 0 then .ok ⟨0⟩ else .error "boom") =
        (.error "boom", st) ∧
      st.containers.length = 1 ∧
      st.queue = st.containers) := by
  constructor
  · exact (c5_pool_start_partial_failure 2 (fun i => .ok ⟨i⟩)).1
      (by intro i _; rfl)
  · obtain ⟨st, h1, h2, h3⟩ :=
      (c5_pool_start_partial_failure 2
          (fun i => if i = 0 then .ok ⟨0⟩ else .error "boom")).2 1 "boom"
        (by omega)
        (by intro i hi
            have : i = 0 := by omega
            subst this
            rfl)
        rfl
    exact ⟨st, h1, h2, h3⟩

theorem utf8DecodeReplace_nil : utf8DecodeReplace [] = "" := by
  rw [utf8DecodeReplace, utf8DecodeReplaceList]

theorem exec_code_completed (settings : SandboxSettings) (exec : ExecOracle)
    (code language : String) (timeout? : Option Nat) (cmdHead : List String)
    (ec : Int) (demux : Option (Option (List Nat) × Option (List Nat)))
    (hlang : LANGUAGE_COMMANDS.lookup (pyLower language) = some cmdHead)
    (hexec : exec (cmdHead ++ [code]) (timeout?.getD settings.exec_timeout) =
      .completed ec demux) :
    exec_code settings exec code language timeout? =
      (.ok { stdout :=
               if (utf8DecodeReplace ((demux.getD (none, none)).1.getD [])).length >
                   settings.max_output_size then
                 (utf8DecodeReplace ((demux.getD (none, none)).1.getD [])).take
                   settings.max_output_size ++ "\n... [output truncated]"
               else utf8DecodeReplace ((demux.getD (none, none)).1.getD []),
             stderr :=
               if (utf8DecodeReplace ((demux.getD (none, none)).2.getD [])).length >
                   settings.max_output_size then
                 (utf8DecodeReplace ((demux.getD (none, none)).2.getD [])).take
                   settings.max_output_size ++ "\n... [output truncated]"
               else utf8DecodeReplace ((demux.getD (none, none)).2.getD []),
             exit_code := ec,
             truncated :=
               decide ((utf8DecodeReplace ((demux.getD (none, none)).1.getD [])).length >
                   settings.max_output_size) ||
               decide ((utf8DecodeReplace ((demux.getD (none, none)).2.getD [])).length >
                   settings.max_output_size) },
       [.execRun (cmdHead ++ [code])]) := by
  simp only [exec_code, hlang, hexec]
  rcases demux with _ | ⟨sout, serr⟩ <;>
    simp only [Option.getD] <;>
    split_ifs <;>
    simp_all [decide_eq_true_eq]

/-- C4 (amended): after decoding each stream with invalid UTF-8 replaced,
`stdout` and `stderr` are each independently clipped to `max_output_size`
**characters** (Python `len` on the decoded `str` — not bytes) and suffixed
with the truncation marker; a decoded output exceeding the cap (in
characters) is clipped and sets `truncated`, one at or below the cap is left
unmodified, and truncation of either stream sets the top-level flag. -/
theorem c4_truncation_per_stream (settings : SandboxSettings) (exec : ExecOracle)
    (code language : String) (timeout? : Option Nat) (cmdHead : List String)
    (ec : Int) (demux : Option (Option (List Nat) × Option (List Nat)))
    (hlang : LANGUAGE_COMMANDS.lookup (pyLower language) = some cmdHead)
    (hexec : exec (cmdHead ++ [code]) (timeout?.getD settings.exec_timeout) =
      .completed ec demux) :
    ∃ res : CodeExecResult,
      (exec_code settings exec code language timeout?).1 = .ok res ∧
      res.exit_code = ec ∧
      (res.truncated = true ↔
        ((utf8DecodeReplace ((demux.getD (none, none)).1.getD [])).length >
            settings.max_output_size ∨
         (utf8DecodeReplace ((demux.getD (none, none)).2.getD [])).length >
            settings.max_output_size)) ∧
      ((utf8DecodeReplace ((demux.getD (none, none)).1.getD [])).length ≤
          settings.max_output_size →
        res.stdout = utf8DecodeReplace ((demux.getD (none, none)).1.getD [])) ∧
      ((utf8DecodeReplace ((demux.getD (none, none)).1.getD [])).length >
          settings.max_output_size →
        res.stdout = (utf8DecodeReplace ((demux.getD (none, none)).1.getD [])).take
          settings.max_output_size ++ "\n... [output truncated]") ∧
      ((utf8DecodeReplace ((demux.getD (none, none)).2.getD [])).length ≤
          settings.max_output_size →
        res.stderr = utf8DecodeReplace ((demux.getD (none, none)).2.getD [])) ∧
      ((utf8DecodeReplace ((demux.getD (none, none)).2.getD [])).length >
          settings.max_output_size →
        res.stderr = (utf8DecodeReplace ((demux.getD (none, none)).2.getD [])).take
          settings.max_output_size ++ "\n... [output truncated]") := by
  rw [exec_code_completed settings exec code language timeout? cmdHead ec demux hlang hexec]
  refine ⟨_, rfl, rfl, ?_, ?_, ?_, ?_, ?_⟩
  · simp [decide_eq_true_eq]
  · intro h
    simp only [if_neg (by omega : ¬ ((utf8DecodeReplace ((demux.getD (none, none)).1.getD
        [])).length > settings.max_output_size))]
  · intro h
    simp only [if_pos h]
  · intro h
    simp only [if_neg (by omega : ¬ ((utf8DecodeReplace ((demux.getD (none, none)).2.getD
        [])).length > settings.max_output_size))]
  · intro h
    simp only [if_pos h]

theorem c4_truncation_per_stream_witness :
    ∃ res : CodeExecResult,
      (exec_code ⟨30, 2⟩
          (fun _ _ => .completed 0 (some (some (utf8Encode "abc"), none)))
          "x" "python" none).1 = .ok res ∧
      res.truncated = true ∧
      res.stdout = "ab\n... [output truncated]" ∧
      res.stderr = "" := by
  obtain ⟨res, h1, h2, h3, h4, h5, h6, h7⟩ :=
    c4_truncation_per_stream ⟨30, 2⟩
      (fun _ _ => .completed 0 (some (some (utf8Encode "abc"), none)))
      "x" "python" none ["python", "-c"] 0 (some (some (utf8Encode "abc"), none))
      (by decide) rfl
  simp only [Option.getD_some, Option.getD_none, utf8DecodeReplace_nil,
    utf8DecodeReplace_encode] at h3 h4 h5 h6 h7
  refine ⟨res, h1, ?_, ?_, ?_⟩
  · exact h3.mpr (Or.inl (by decide))
  · rw [h5 (by decide)]
    decide
  · exact h6 (by decide)

/-- C4 counterexample: the claim measures truncation in bytes, but the code
clips the decoded Python `str` by characters.  With `max_output_size = 3`, a
completed exec whose stderr decodes to `"éaa"` (3 characters, 4 UTF-8 bytes —
exceeding the cap by exactly 1 byte) is returned unmodified with
`truncated = false`, contradicting "an output exceeding the cap by 1 byte
sets truncated = true" and "clipped to max_output_size bytes". -/
theorem c4_truncation_in_bytes_counterexample :
    ∃ res : CodeExecResult,
      (exec_code ⟨30, 3⟩
          (fun _ _ => .completed 0 (some (none, some (utf8Encode "éaa"))))
          "print(1)" "python" none).1 = .ok res ∧
      (utf8Encode res.stderr).length = 3 + 1 ∧
      res.stderr = "éaa" ∧
      res.truncated = false := by
  have h := exec_code_completed ⟨30, 3⟩
      (fun _ _ => .completed 0 (some (none, some (utf8Encode "éaa"))))
      "print(1)" "python" none ["python", "-c"] 0
      (some (none, some (utf8Encode "éaa"))) (by decide) rfl
  refine ⟨⟨"", "éaa", 0, false⟩, ?_, by decide, rfl, rfl⟩
  rw [h]
  simp only [Option.getD_some, Option.getD_none, utf8DecodeReplace_nil,
    utf8DecodeReplace_encode]
  decide

/-- C3: every sandbox tool handler (execute_code, sandbox_read_file,
sandbox_write_file, sandbox_list_files) releases the acquired container back
to the pool exactly once on every outcome of the inner operation — normal
return, raised file error, path-guard rejection, or a raised docker error —
so the idle queue after the handler completes is a permutation of (and in
particular has the same length as) the queue before the call. -/
theorem c3_container_released_on_every_path (settings : SandboxSettings)
    (exec : Container → ExecOracle) (ls : Container → String → Option String)
    (st : PoolState) (code language rpath wpath content lpath : String)
    (h : st.queue ≠ []) :
    (∃ out st', execute_code_tool settings exec st code language = some (out, st') ∧
      st'.queue.Perm st.queue ∧ st'.queue.length = st.queue.length) ∧
    (∃ out st', sandbox_read_file st rpath = some (out, st') ∧
      st'.queue.Perm st.queue ∧ st'.queue.length = st.queue.length) ∧
    (∃ out st', sandbox_write_file st wpath content = some (out, st') ∧
      st'.queue.Perm st.queue ∧ st'.queue.length = st.queue.length) ∧
    (∃ out st', sandbox_list_files ls st lpath = some (out, st') ∧
      st'.queue.Perm st.queue ∧ st'.queue.length = st.queue.length) := by
  obtain ⟨c, rest, hq⟩ : ∃ c rest, st.queue = c :: rest := by
    cases hque : st.queue with
    | nil => exact absurd hque h
    | cons c rest => exact ⟨c, rest, rfl⟩
  have hacq : acquire st = some (c, { st with queue := rest }) := by
    rw [acquire, hq]
  have hperm : (rest ++ [c]).Perm st.queue := by
    rw [hq]
    exact List.perm_append_singleton c rest
  have hlen : (rest ++ [c]).length = st.queue.length := by
    rw [hq]
    simp
  refine ⟨?_, ?_, ?_, ?_⟩
  · rw [execute_code_tool, hacq]
    dsimp only
    rcases hr : (exec_code settings (exec c) code language none).1 with msg | result
    · exact ⟨.error msg, _, rfl, hperm, hlen⟩
    · exact ⟨_, _, rfl, hperm, hlen⟩
  · rw [sandbox_read_file]
    rcases hsp : _safe_path rpath with e | resolved
    · exact ⟨.error e, st, rfl, List.Perm.refl _, rfl⟩
    · rw [hacq]
      dsimp only
      rcases hfr : file_read (st.fs c) resolved with e | data
      · exact ⟨.error e, _, rfl, hperm, hlen⟩
      · exact ⟨_, _, rfl, hperm, hlen⟩
  · rw [sandbox_write_file]
    rcases hsp : _safe_path wpath with e | resolved
    · exact ⟨.error e, st, rfl, List.Perm.refl _, rfl⟩
    · rw [hacq]
      dsimp only
      exact ⟨_, _, rfl, hperm, hlen⟩
  · rw [sandbox_list_files]
    rcases hsp : _safe_path lpath with e | resolved
    · exact ⟨.error e, st, rfl, List.Perm.refl _, rfl⟩
    · rw [hacq]
      dsimp only
      rcases hls : ls c resolved with _ | listing
      · exact ⟨_, _, rfl, hperm, hlen⟩
      · exact ⟨_, _, rfl, hperm, hlen⟩

theorem c3_container_released_on_every_path_witness :
    (∃ out st', execute_code_tool ⟨30, 50000⟩ (fun _ _ _ => .timedOut)
        ⟨[⟨0⟩], fun _ => []⟩ "print(1)" "python" = some (out, st') ∧
      st'.queue.Perm [⟨0⟩] ∧ st'.queue.length = 1) ∧
    (∃ out st', sandbox_read_file ⟨[⟨0⟩], fun _ => []⟩ "a.txt" = some (out, st') ∧
      st'.queue.Perm [⟨0⟩] ∧ st'.queue.length = 1) ∧
    (∃ out st', sandbox_write_file ⟨[⟨0⟩], fun _ => []⟩ "b.txt" "hi" = some (out, st') ∧
      st'.queue.Perm [⟨0⟩] ∧ st'.queue.length = 1) ∧
    (∃ out st', sandbox_list_files (fun _ _ => none) ⟨[⟨0⟩], fun _ => []⟩ "/workspace" =
        some (out, st') ∧
      st'.queue.Perm [⟨0⟩] ∧ st'.queue.length = 1) :=
  c3_container_released_on_every_path ⟨30, 50000⟩ (fun _ _ _ => .timedOut)
    (fun _ _ => none) ⟨[⟨0⟩], fun _ => []⟩ "print(1)" "python" "a.txt" "b.txt" "hi"
    "/workspace" (by decide)

theorem exec_code_no_raise (settings : SandboxSettings) (exec : ExecOracle)
    (code language : String) (timeout? : Option Nat)
    (hok : ∀ argv t msg, exec argv t ≠ .raised msg) :
    ∃ r, (exec_code settings exec code language timeout?).1 = .ok r := by
  rcases hl : LANGUAGE_COMMANDS.lookup (pyLower language) with _ | cmdHead
  · exact ⟨{ stdout := "",
             stderr := "Unsupported language: " ++ language ++ ". Supported: " ++
               pyJoin ", " (LANGUAGE_COMMANDS.map Prod.fst),
             exit_code := 1, truncated := false },
      by simp only [exec_code, hl]⟩
  · rcases ho : exec (cmdHead ++ [code]) (timeout?.getD settings.exec_timeout) with
      ⟨ec, demux⟩ | _ | ⟨msg⟩
    · exact ⟨_, by rw [exec_code_completed settings exec code language timeout?
        cmdHead ec demux hl ho]⟩
    · exact ⟨{ stdout := "",
               stderr := "Execution timed out after " ++
                 toString (timeout?.getD settings.exec_timeout) ++ " seconds",
               exit_code := -1, truncated := false },
        by simp only [exec_code, hl, ho]⟩
    · exact absurd ho (hok _ _ _)

/-- C6: given a container whose docker exec channel honors the driver
contract (returns demuxed output or the synthetic timeout, and does not
raise), the `execute_code` tool never raises: it returns a formatted
multi-section string that always contains `[exit_code] N` for the result's
exit code, contains `[stdout]…` / `[stderr]…` sections whenever those streams
are non-empty (in particular every error path puts its message in stderr with
a non-zero exit code), and contains the `[note]` section when output was
truncated; concretely, `execute_code(code="print(1+1)", language="python")`
yields text containing `"[stdout]\n2\n"` and `"[exit_code] 0"`. -/
theorem c6_execute_code_response (settings : SandboxSettings)
    (exec : Container → ExecOracle) (c : Container) (rest : List Container)
    (fs : Container → Workspace) (code language : String)
    (hok : ∀ argv t msg, exec c argv t ≠ .raised msg) :
    ∃ resp st' r,
      execute_code_tool settings exec ⟨c :: rest, fs⟩ code language =
        some (.ok resp, st') ∧
      (exec_code settings (exec c) code language none).1 = .ok r ∧
      strContains resp ("[exit_code] " ++ toString r.exit_code) ∧
      (r.stdout ≠ "" → strContains resp ("[stdout]\n" ++ r.stdout)) ∧
      (r.stderr ≠ "" → strContains resp ("[stderr]\n" ++ r.stderr)) ∧
      (r.truncated = true →
        strContains resp "[note] Output was truncated due to size limits.") ∧
      (code = "print(1+1)" → language = "python" →
        exec c ["python", "-c", "print(1+1)"] settings.exec_timeout =
          .completed 0 (some (some (utf8Encode "2\n"), none)) →
        2 ≤ settings.max_output_size →
        strContains resp "[stdout]\n2\n" ∧ strContains resp "[exit_code] 0") := by
  obtain ⟨r, hr⟩ := exec_code_no_raise settings (exec c) code language none hok
  have htool : execute_code_tool settings exec ⟨c :: rest, fs⟩ code language =
      some (.ok (pyJoin "\n"
          ((if r.stdout ≠ "" then ["[stdout]\n" ++ r.stdout] else []) ++
           (if r.stderr ≠ "" then ["[stderr]\n" ++ r.stderr] else []) ++
           ["[exit_code] " ++ toString r.exit_code] ++
           (if r.truncated then ["[note] Output was truncated due to size limits."]
            else []))),
        ⟨rest ++ [c], fs⟩) := by
    simp only [execute_code_tool, acquire, release, hr]
  refine ⟨_, _, r, htool, hr, ?_, ?_, ?_, ?_, ?_⟩
  · apply pyJoin_mem_infix
    simp
  · intro hne
    apply pyJoin_mem_infix
    simp [hne]
  · intro hne
    apply pyJoin_mem_infix
    simp [hne]
  · intro ht
    apply pyJoin_mem_infix
    simp [ht]
  · rintro rfl rfl hexec hcap
    have hfull := exec_code_completed settings (exec c) "print(1+1)" "python" none
      ["python", "-c"] 0 (some (some (utf8Encode "2\n"), none)) (by decide) hexec
    have h1 : (Except.ok r : Except String CodeExecResult) =
        Except.ok { stdout := "2\n", stderr := "", exit_code := 0,
                    truncated := false } := by
      rw [← hr, hfull]
      dsimp only
      simp only [Option.getD_some, Option.getD_none, utf8DecodeReplace_encode,
        utf8DecodeReplace_nil,
        show ("2\n" : String).length = 2 from rfl,
        show ("" : String).length = 0 from rfl]
      rw [if_neg (by omega), if_neg (by omega)]
      have hd1 : decide (2 > settings.max_output_size) = false := by
        simp only [decide_eq_false_iff_not]
        omega
      have hd2 : decide (0 > settings.max_output_size) = false := by
        simp only [decide_eq_false_iff_not]
        omega
      rw [hd1, hd2]
      rfl
    rw [Except.ok.injEq] at h1
    subst h1
    constructor
    · apply pyJoin_mem_infix
      rw [show ("[stdout]\n2\n" : String) = "[stdout]\n" ++ "2\n" from rfl]
      simp [show ("2\n" : String) ≠ "" from by decide]
    · apply pyJoin_mem_infix
      rw [show ("[exit_code] 0" : String) = "[exit_code] " ++ toString (0 : Int) from rfl]
      simp

theorem c6_execute_code_response_witness :
    ∃ resp st',
      execute_code_tool ⟨30, 50000⟩
          (fun _ argv _ =>
            if argv = ["python", "-c", "print(1+1)"] then
              .completed 0 (some (some (utf8Encode "2\n"), none))
            else .timedOut)
          ⟨⟨0⟩ :: [], fun _ => []⟩ "print(1+1)" "python" =
        some (.ok resp, st') ∧
      strContains resp "[stdout]\n2\n" ∧
      strContains resp "[exit_code] 0" := by
  obtain ⟨resp, st', r, htool, hr, hc1, hc2, hc3, hc4, hfinal⟩ :=
    c6_execute_code_response ⟨30, 50000⟩
      (fun _ argv _ =>
        if argv = ["python", "-c", "print(1+1)"] then
          .completed 0 (some (some (utf8Encode "2\n"), none))
        else .timedOut)
      ⟨0⟩ [] (fun _ => []) "print(1+1)" "python"
      (by intro argv t msg
          dsimp only
          split_ifs <;> simp)
  have hconc := hfinal rfl rfl (by rw [if_pos rfl]) (by decide)
  exact ⟨resp, st', htool, hconc.1, hconc.2⟩

theorem lookup_cons_self {α : Type} [DecidableEq α] [BEq α] [LawfulBEq α]
    (k : α) (v : List Nat) (rest : List (α × List Nat)) :
    List.lookup k ((k, v) :: rest) = some v := by
  simp [List.lookup]

/-- C8: for any path accepted by the path guard and any content string,
`sandbox_write_file` followed by `sandbox_read_file` of the same path on a
single-container pool (so the same container, with no intervening
`reset_workspace`) returns exactly the written content, and the write
confirmation is `"Wrote N bytes to <resolved>"` with N the UTF-8 byte length
of the content and `<resolved>` the guard's normalized absolute path. -/
theorem c8_write_read_roundtrip (c : Container) (fs : Container → Workspace)
    (p b resolved : String) (hsp : _safe_path p = .ok resolved) :
    ∃ st1 st2,
      sandbox_write_file ⟨[c], fs⟩ p b =
        some (.ok ("Wrote " ++ toString (utf8Encode b).length ++ " bytes to " ++
          resolved), st1) ∧
      sandbox_read_file st1 p = some (.ok b, st2) := by
  refine ⟨⟨[c], fun x => if x = c then (resolved, utf8Encode b) :: fs c else fs x⟩,
    ⟨[c], fun x => if x = c then (resolved, utf8Encode b) :: fs c else fs x⟩, ?_, ?_⟩
  · rw [sandbox_write_file, hsp]
    rfl
  · rw [sandbox_read_file, hsp]
    have hacq : acquire ⟨[c], fun x => if x = c then (resolved, utf8Encode b) :: fs c
        else fs x⟩ = some (c, ⟨[], fun x => if x = c then (resolved, utf8Encode b) ::
        fs c else fs x⟩) := rfl
    rw [hacq]
    dsimp only
    rw [if_pos rfl]
    rw [show file_read ((resolved, utf8Encode b) :: fs c) resolved =
      .ok (utf8Encode b) by rw [file_read, lookup_cons_self]]
    dsimp only
    rw [utf8DecodeReplace_encode]
    rfl

theorem c8_write_read_roundtrip_witness :
    ∃ st1 st2,
      sandbox_write_file ⟨[⟨0⟩], fun _ => []⟩ "notes/a.txt" "hi" =
        some (.ok "Wrote 2 bytes to /workspace/notes/a.txt", st1) ∧
      sandbox_read_file st1 "notes/a.txt" = some (.ok "hi", st2) := by
  obtain ⟨st1, st2, hw, hrd⟩ := c8_write_read_roundtrip ⟨0⟩ (fun _ => [])
    "notes/a.txt" "hi" "/workspace/notes/a.txt" (by decide)
  exact ⟨st1, st2, hw, hrd⟩
